import Mathlib

/-!
Verification of the WheelStudio build scripts (`build_wheels.py`,
`manage_submodules.py`) against their natural-language specification.

The Python code is shallowly embedded: pure fragments become Lean functions,
filesystem state becomes explicit record passing, subprocess calls and
exceptions become explicit outcome parameters (`Option`/sum types).
-/

namespace WheelStudio

/-- Python whitespace as used by `str.strip()` (ASCII subset, which is all
that occurs in the data handled by these scripts). -/
def isPySpace (c : Char) : Bool :=
  c = ' ' || c = '\t' || c = '\n' || c = '\r' || c = Char.ofNat 11 || c = Char.ofNat 12

/-- Python `str.strip()`: drop leading and trailing whitespace. -/
def pyStrip (s : String) : String :=
  String.mk (((s.data.dropWhile isPySpace).reverse.dropWhile isPySpace).reverse)

/-- Split a character list on a separator character, Python
`str.split(sep)` style: splitting the empty string gives one empty piece. -/
def splitOnChar (sep : Char) : List Char → List (List Char)
  | [] => [[]]
  | c :: rest =>
    let r := splitOnChar sep rest
    if c = sep then [] :: r
    else
      match r with
      | h :: t => (c :: h) :: t
      | [] => [[c]]

/-- Python `s.split(sep)` for a one-character separator. -/
def pySplit (sep : Char) (s : String) : List String :=
  (splitOnChar sep s.data).map String.mk

/-- Boolean prefix test on character lists. -/
def listIsPrefixOf : List Char → List Char → Bool
  | [], _ => true
  | _ :: _, [] => false
  | a :: as, b :: bs => a = b && listIsPrefixOf as bs

/-- Boolean substring test on character lists. -/
def listContainsSub (pat : List Char) : List Char → Bool
  | [] => pat.isEmpty
  | c :: rest => listIsPrefixOf pat (c :: rest) || listContainsSub pat rest

/-- Python's `pat in s` substring test. -/
def strContains (s pat : String) : Bool :=
  listContainsSub pat.data s.data

/-- Digit list to natural number (used to model Python numeric parsing). -/
def digitsVal (l : List Char) : Nat :=
  l.foldl (fun a c => a * 10 + (c.toNat - 48)) 0

/-- A non-negative decimal value `num / den`, the result of Python
`float()` on the plain decimal strings occurring in these scripts.
Comparisons between such values are exact, so the rational pair is a
faithful model of the float comparison performed by the code. -/
structure PyFloat where
  num : Nat
  den : Nat
deriving DecidableEq, Repr

/-- Value-level order on `PyFloat` by cross multiplication. -/
def PyFloat.le (x y : PyFloat) : Bool :=
  x.num * y.den ≤ y.num * x.den

/-- Value-level equality on `PyFloat` by cross multiplication. -/
def PyFloat.eqv (x y : PyFloat) : Bool :=
  x.num * y.den = y.num * x.den

/-- Python `float(s)` on the plain decimal strings that occur here
(`"8.6"`, `"12.0"`, `"75"`, ...): optional surrounding whitespace, digits
with at most one dot. `none` models `float` raising `ValueError`. -/
def parsePyFloat (s : String) : Option PyFloat :=
  let t := pyStrip s
  match pySplit '.' t with
  | [a] =>
    if a ≠ "" && a.data.all Char.isDigit then some ⟨digitsVal a.data, 1⟩ else none
  | [a, b] =>
    if (a ≠ "" || b ≠ "") && a.data.all Char.isDigit && b.data.all Char.isDigit then
      some ⟨digitsVal a.data * 10 ^ b.length + digitsVal b.data, 10 ^ b.length⟩
    else none
  | _ => none

/-! ## build_wheels.py — fairseq CUDA architecture selection (claim C1)

`build_wheel`, Linux branch for the `fairseq` subproject with CUDA: query
`nvidia-smi --query-gpu=compute_cap`, expand a single detected value, fall
back to `"7.5;8.0;8.6"` on any exception or empty detection. -/

/-- The fixed list `all_arches` from `build_wheels.py` line 362. -/
def all_arches : List String := ["12.0", "10.0", "9.0", "8.9", "8.7", "8.6", "8.0", "7.5"]

/-- Numeric value of a fixed architecture string (every element of
`all_arches` parses, so the default is never used on them). -/
def archVal (a : String) : PyFloat := (parsePyFloat a).getD ⟨0, 1⟩

/-- Model of `better_arches` from `build_wheels.py` lines 360-365: the elements of
`all_arches` whose `float` value is at most the detected maximum, in list
order. -/
def better_arches (max_arch : PyFloat) : List String :=
  all_arches.filter (fun a => (archVal a).le max_arch)

/-- Parsing of `nvidia-smi` stdout (lines 354-357): strip, split on
newlines, keep the stripped non-empty lines. -/
def archListOfStdout (stdout : String) : List String :=
  (pySplit '\n' (pyStrip stdout)).filterMap
    (fun l => if pyStrip l = "" then none else some (pyStrip l))

/-- Outcome of the `nvidia-smi --query-gpu=compute_cap` subprocess:
either it raises (command missing / non-zero exit) or returns stdout. -/
inductive NvidiaSmiResult where
  | raised : NvidiaSmiResult
  | ok : String → NvidiaSmiResult
deriving DecidableEq

/-- The value assigned to `TORCH_CUDA_ARCH_LIST` by `build_wheel` on Linux
for fairseq with CUDA (lines 345-382). A `float` parse failure inside the
`try` is caught by the same `except` and triggers the fallback. -/
def fairseqLinuxArchEnv : NvidiaSmiResult → String
  | .raised => "7.5;8.0;8.6"
  | .ok stdout =>
    let arch_list := archListOfStdout stdout
    let expanded : Option (List String) :=
      if arch_list.length = 1 then
        match parsePyFloat (arch_list.headD "") with
        | none => none
        | some m =>
          let b := better_arches m
          some (if b.length ≠ 0 then b else arch_list)
      else some arch_list
    match expanded with
    | none => "7.5;8.0;8.6"
    | some l => if l ≠ [] then String.intercalate ";" l else "7.5;8.0;8.6"

/-! ## build_wheels.py — copy_wheels (claims C2, C6)

`copy_wheels(source_dir, target_dir)` iterates over the source listing,
copies `.whl` files, and skips a `laion_clap-1.1.4` wheel when the target
listing already holds a `laion_clap-1.1.5` file. When the source directory
does not exist it returns the bare integer `0`; otherwise it returns the
pair `(count, copied_files)`. Directory listings are modelled as filename
lists; `shutil.copy2` overwrites, so a filename already present in the
target listing stays listed once. -/

/-- Python `s.endswith(suffix)`. -/
def pyEndsWith (s suffix : String) : Bool :=
  listIsPrefixOf suffix.data.reverse s.data.reverse

/-- Loop state of `copy_wheels`: current target-directory listing, the
`count` accumulator and the `copied_files` accumulator. -/
structure CopyState where
  target : List String
  count : Nat
  copied : List String
deriving DecidableEq, Repr

/-- The duplicate-CLAP condition from `build_wheels.py` line 422: the file
name contains `laion_clap-1.1.4` and some file currently listed in the
target directory contains `laion_clap-1.1.5`. -/
def clapSkip (st : CopyState) (file : String) : Bool :=
  strContains file "laion_clap-1.1.4" &&
    st.target.any (fun existing => strContains existing "laion_clap-1.1.5")

/-- One iteration of the `copy_wheels` loop (lines 417-429). -/
def copyStep (st : CopyState) (file : String) : CopyState :=
  if pyEndsWith file ".whl" then
    if clapSkip st file then st
    else
      { target := if st.target.contains file then st.target else st.target ++ [file]
        count := st.count + 1
        copied := st.copied ++ [file] }
  else st

/-- Return value of `copy_wheels`: the early branch returns the bare
integer `0`, the normal path returns the `(count, copied_files)` pair. -/
inductive CopyResult where
  | intRet : Nat → CopyResult
  | pairRet : Nat → List String → CopyResult
deriving DecidableEq, Repr

/-- Model of `copy_wheels` (lines 409-431) over listings: result together with the
final target-directory listing. -/
def copy_wheels (sourceExists : Bool) (sourceFiles targetFiles : List String) :
    CopyResult × List String :=
  if sourceExists then
    let final := sourceFiles.foldl copyStep { target := targetFiles, count := 0, copied := [] }
    (.pairRet final.count final.copied, final.target)
  else (.intRet 0, targetFiles)

/-! ## build_wheels.py — get_project_version (claim C3)

`get_project_version` (lines 239-278) reads `version.txt` (returning the
stripped content), else scans `setup.py`, else `pyproject.toml` with the
regex `version\s*=\s*["\x27]([^"\x27]+)["\x27]`, returning `None` when
nothing matches. -/

/-- A quote character of the regex character class. -/
def isQuoteChar (c : Char) : Bool :=
  c = '"' || c = Char.ofNat 39

/-- Match of the regex `version\s*=\s*["\x27]([^"\x27]+)["\x27]` anchored
at the start of `l`, returning the captured group. The greedy `[^"\x27]+`
is a maximal run of non-quote characters followed by a mandatory quote,
which is exactly the take/drop-while decomposition below. -/
def matchVersionAt (l : List Char) : Option String :=
  if listIsPrefixOf "version".data l then
    match (l.drop 7).dropWhile isPySpace with
    | '=' :: rest =>
      match rest.dropWhile isPySpace with
      | q :: body =>
        if isQuoteChar q then
          let captured := body.takeWhile (fun c => !isQuoteChar c)
          let after := body.dropWhile (fun c => !isQuoteChar c)
          if !captured.isEmpty && !after.isEmpty then some (String.mk captured) else none
        else none
      | [] => none
    | _ => none
  else none

/-- Model of `re.search` for the version pattern: the leftmost match wins. -/
def searchVersionAux : List Char → Option String
  | [] => none
  | c :: rest =>
    match matchVersionAt (c :: rest) with
    | some v => some v
    | none => searchVersionAux rest

/-- Version extraction from a configuration file's content. -/
def searchVersion (content : String) : Option String :=
  searchVersionAux content.data

/-- The three files `get_project_version` may consult, each `none` when
absent from the project directory. -/
structure ProjectFiles where
  versionTxt : Option String
  setupPy : Option String
  pyprojectToml : Option String
deriving DecidableEq

/-- Model of `get_project_version` (lines 239-278). -/
def get_project_version (p : ProjectFiles) : Option String :=
  match p.versionTxt with
  | some content => some (pyStrip content)
  | none =>
    match p.setupPy with
    | some content =>
      match searchVersion content with
      | some v => some v
      | none => p.pyprojectToml.bind searchVersion
    | none => p.pyprojectToml.bind searchVersion

/-! ## build_wheels.py — build_wheel (claims C4, C5)

`build_wheel` (lines 281-406): the whole body is wrapped in `try`, any
exception is logged and `None` returned. The filesystem of one project
directory is modelled by `BuildFS`; the outcome of the `python -m build`
subprocess is the explicit parameter `buildRaises`. -/

/-- Filesystem of one project directory as seen by `build_wheel`:
`nestedVersionTxt` is the nested `<project>/fairseq/version.txt` file. -/
structure BuildFS where
  versionTxt : Option String
  setupPy : Option String
  pyprojectToml : Option String
  nestedVersionTxt : Option String
  distExists : Bool
  buildExists : Bool
  eggInfoExists : Bool
deriving DecidableEq

/-- The files of the project directory consulted by `get_project_version`. -/
def projectFilesOf (fs : BuildFS) : ProjectFiles :=
  { versionTxt := fs.versionTxt, setupPy := fs.setupPy, pyprojectToml := fs.pyprojectToml }

/-- The fairseq version pin (lines 288-300): when the resolved version is
truthy, the project is `fairseq`, the version differs from `0.12.3`, and
the nested `fairseq/version.txt` exists, that nested file is rewritten to
`0.12.3`. -/
def applyFairseqPin (project_name : String) (fs : BuildFS) : BuildFS :=
  match get_project_version (projectFilesOf fs) with
  | some v =>
    if v ≠ "" ∧ project_name = "fairseq" ∧ v ≠ "0.12.3" ∧ fs.nestedVersionTxt.isSome then
      { fs with nestedVersionTxt := some "0.12.3" }
    else fs
  | none => fs

/-- Model of `build_wheel` (lines 281-406): version pin, cleanup of `dist`/`build`/
egg-info, abort with `None` when `pyproject.toml` is missing, re-creation
of `dist`, then the build command; a raising build is caught and turns
into `None`. Returns the result value and the final project filesystem. -/
def build_wheel (project_path project_name : String) (fs : BuildFS) (buildRaises : Bool) :
    Option String × BuildFS :=
  let fs2 := { applyFairseqPin project_name fs with
                distExists := false, buildExists := false, eggInfoExists := false }
  if fs2.pyprojectToml.isNone then (none, fs2)
  else
    let fs3 := { fs2 with distExists := true }
    if buildRaises then (none, fs3) else (some (project_path ++ "/dist"), fs3)

/-! ## manage_submodules.py (claims C7, C8, C10)

Directories are modelled as an association list from path to an opaque
content identifier. The outcome of each OS-level move/remove attempt is an
explicit parameter (`success`, an `OSError`/`PermissionError` caught by the
retry loop, or some other exception which propagates); on a failed attempt
the filesystem is unchanged, on a successful one the operation's effect
applies. `run_command` swallows `CalledProcessError`, so issued git
commands never raise; their stdout and external effects come from a
`SubprocessEnv`. -/

/-- A directory listing: path to content identifier. -/
abbrev DirList := List (String × String)

/-- Content at a path. -/
def fsGet : DirList → String → Option String
  | [], _ => none
  | (k, v) :: rest, p => if k = p then some v else fsGet rest p

/-- Delete a path (model of `shutil.rmtree`; no-op when absent). -/
def fsRemove : DirList → String → DirList
  | [], _ => []
  | (k, v) :: rest, p => if k = p then fsRemove rest p else (k, v) :: fsRemove rest p

/-- Create or overwrite a path with the given content. -/
def fsSet (fs : DirList) (p c : String) : DirList :=
  (p, c) :: fsRemove fs p

/-- Model of `os.makedirs(p, exist_ok=True)`: create only when absent. -/
def fsEnsure (fs : DirList) (p c : String) : DirList :=
  if (fsGet fs p).isSome then fs else fsSet fs p c

/-- Effect of one successful `safely_move_directory` attempt (lines 63-66):
delete the destination when it exists, then move the source onto it. -/
def moveDir (fs : DirList) (src dst : String) : DirList :=
  let fs1 := fsRemove fs dst
  match fsGet fs1 src with
  | some c => fsSet (fsRemove fs1 src) dst c
  | none => fs1

/-- Outcome of one OS-level attempt: success, a caught
`PermissionError`/`OSError`, or an exception outside the `except` clause. -/
inductive AttemptOutcome where
  | success
  | osError
  | otherError
deriving DecidableEq, Repr

/-- The shared retry skeleton of `safely_move_directory` and
`safely_remove_directory` (lines 56-96): up to `fuel` attempts, numbered
from `i`; a caught error appends a `time.sleep(1)` (recorded in the third
component) and retries; exhausted attempts return `False` with the
filesystem untouched; any other exception propagates (`none`). -/
def retryFSOp (eff : DirList → DirList) (o : Nat → AttemptOutcome) (fs : DirList) :
    Nat → Nat → Option (Bool × DirList × List Nat)
  | 0, _ => some (false, fs, [])
  | fuel + 1, i =>
    match o i with
    | .success => some (true, eff fs, [])
    | .osError =>
      match retryFSOp eff o fs fuel (i + 1) with
      | some (b, fs', sleeps) => some (b, fs', 1 :: sleeps)
      | none => none
    | .otherError => none

/-- Model of `safely_move_directory` (lines 56-76): three attempts of
delete-destination-then-move. -/
def safely_move_directory (o : Nat → AttemptOutcome) (fs : DirList) (src dst : String) :
    Option (Bool × DirList × List Nat) :=
  retryFSOp (fun f => moveDir f src dst) o fs 3 0

/-- Model of `safely_remove_directory` (lines 78-96): three attempts of
remove-if-present (returns `True` even when the path was absent). -/
def safely_remove_directory (o : Nat → AttemptOutcome) (fs : DirList) (d : String) :
    Option (Bool × DirList × List Nat) :=
  retryFSOp (fun f => fsRemove f d) o fs 3 0

/-- The git repository state seen by `manage_submodules.py`: the
`.gitmodules` content (`none` when the file is absent) and the directory
listing. -/
structure RepoState where
  gitmodules : Option String
  dirs : DirList
deriving DecidableEq

/-- Model of `check_submodule_exists` (lines 31-37): `.gitmodules` exists
and contains `path = <name>`. -/
def check_submodule_exists (st : RepoState) (name : String) : Bool :=
  match st.gitmodules with
  | some content => strContains content ("path = " ++ name)
  | none => false

/-- Path existence in the directory listing. -/
def pathExists (st : RepoState) (p : String) : Bool :=
  (fsGet st.dirs p).isSome

/-- Model of `check_if_directory_exists` (lines 39-41); every entry of the
listing is a directory. -/
def check_if_directory_exists (st : RepoState) (name : String) : Bool :=
  pathExists st name

/-- Body of the `check_and_pull_submodules` loop (lines 173-183): the
state-changing commands issued for one submodule. -/
def checkPullStep (st : RepoState) (name : String) : List (List String) :=
  if check_submodule_exists st name then
    if !pathExists st (name ++ "/.git") then
      [["git", "submodule", "update", "--init", name]]
    else []
  else []

/-- Model of `check_and_pull_submodules`: the commands issued over all
submodule names (the function mutates nothing itself). -/
def check_and_pull_submodules (st : RepoState) (names : List String) : List (List String) :=
  (names.map (checkPullStep st)).flatten

/-- The `SUBMODULES` dictionary (lines 10-19). -/
def SUBMODULES : List (String × String) := [
  ("coqui-ai-TTS", "https://github.com/d8ahazard/coqui-ai-TTS.git"),
  ("mamba", "https://github.com/d8ahazard/mamba.git"),
  ("causal-conv1d", "https://github.com/d8ahazard/causal-conv1d.git"),
  ("fairseq", "https://github.com/d8ahazard/fairseq.git"),
  ("stable-audio-tools", "https://github.com/d8ahazard/stable-audio-tools.git"),
  ("versatile_audio_super_resolution",
    "https://github.com/d8ahazard/versatile_audio_super_resolution.git"),
  ("openvoice-cli", "https://github.com/d8ahazard/openvoice-cli.git"),
  ("CLAP", "https://github.com/d8ahazard/CLAP.git")]

/-- External inputs of one `add_missing_submodules` iteration: attempt
outcomes for the three `safely_*` calls, stdout of the git queries, and
the external effect of `git submodule add` (new `.gitmodules` content and
the cloned directory's content identifier). -/
structure SubprocessEnv where
  removeBackupOutcome : Nat → AttemptOutcome
  moveOutcome : Nat → AttemptOutcome
  removeTempOutcome : Nat → AttemptOutcome
  statusOut : String
  diffOut : String
  gitmodulesAfterAdd : Option String
  submoduleContent : String

/-- The `git submodule add <url> <name>` command. -/
def gitSubmoduleAddCmd (url name : String) : List String :=
  ["git", "submodule", "add", url, name]

/-- External effect of `git submodule add`: the cloned directory and its
`.git` link appear. -/
def applyGitAdd (env : SubprocessEnv) (dirs : DirList) (name : String) : DirList :=
  fsSet (fsSet dirs name env.submoduleContent) (name ++ "/.git") "gitlink"

/-- Body of the `add_missing_submodules` loop (lines 98-171) for one
`(name, url)` pair: the issued commands and the resulting state, `none`
when an uncaught exception propagates. A registered submodule is left
untouched; an unregistered existing directory is converted (backing up a
git repository's local changes first); a missing directory is simply
added. -/
def addMissingStep (env : SubprocessEnv) (st : RepoState) (name url : String) :
    Option (List (List String) × RepoState) :=
  if check_submodule_exists st name then some ([], st)
  else if check_if_directory_exists st name then
    if pathExists st (name ++ "/.git") then
      let backup_dir := "backup_repos/" ++ name ++ "_backup"
      let dirs0 := fsEnsure st.dirs "backup_repos" "dir"
      match safely_remove_directory env.removeBackupOutcome dirs0 backup_dir with
      | none => none
      | some (_, dirs1, _) =>
        let has_changes := pyStrip env.statusOut != ""
        let cmds2 : List (List String) :=
          if has_changes then
            [["git", "status", "--porcelain"], ["git", "diff", "--staged"], ["git", "diff"]]
          else [["git", "status", "--porcelain"]]
        let dirs2 :=
          if has_changes then
            fsSet (fsEnsure dirs1 backup_dir "dir")
              (backup_dir ++ "/local_changes.patch") env.diffOut
          else dirs1
        match safely_move_directory env.moveOutcome dirs2 name (name ++ "_temp") with
        | none => none
        | some (false, dirs3, _) => some (cmds2, { st with dirs := dirs3 })
        | some (true, dirs3, _) =>
          let dirs4 := applyGitAdd env dirs3 name
          let patch := fsGet dirs4 (backup_dir ++ "/local_changes.patch")
          let applyPatch := has_changes && patch.isSome && (pyStrip (patch.getD "") != "")
          let cmds5 : List (List String) :=
            if applyPatch then [["git", "apply", backup_dir ++ "/temp.patch"]] else []
          let dirs5 :=
            if applyPatch then fsSet dirs4 (backup_dir ++ "/temp.patch") (patch.getD "")
            else dirs4
          match safely_remove_directory env.removeTempOutcome dirs5 (name ++ "_temp") with
          | none => none
          | some (_, dirs6, _) =>
            some (cmds2 ++ [gitSubmoduleAddCmd url name] ++ cmds5,
                  { gitmodules := env.gitmodulesAfterAdd, dirs := dirs6 })
    else
      match safely_move_directory env.moveOutcome st.dirs name (name ++ "_temp") with
      | none => none
      | some (false, dirs1, _) => some ([], { st with dirs := dirs1 })
      | some (true, dirs1, _) =>
        let dirs2 := applyGitAdd env dirs1 name
        match safely_remove_directory env.removeTempOutcome dirs2 (name ++ "_temp") with
        | none => none
        | some (_, dirs3, _) =>
          some ([gitSubmoduleAddCmd url name],
                { gitmodules := env.gitmodulesAfterAdd, dirs := dirs3 })
  else
    some ([gitSubmoduleAddCmd url name],
          { gitmodules := env.gitmodulesAfterAdd, dirs := applyGitAdd env st.dirs name })

/-- Model of `add_missing_submodules` (lines 98-171): fold the step over
the submodule list, collecting issued commands. -/
def add_missing_submodules (env : String → SubprocessEnv) :
    RepoState → List (String × String) → Option (List (List String) × RepoState)
  | st, [] => some ([], st)
  | st, nu :: rest =>
    match addMissingStep (env nu.1) st nu.1 nu.2 with
    | none => none
    | some (cmds, st') =>
      match add_missing_submodules env st' rest with
      | some (cmds', st'') => some (cmds ++ cmds', st'')
      | none => none

/-! ## build_wheels.py — main's package filter (claim C9) -/

/-- The static `all_projects` list from `build_wheels.py` lines 563-573. -/
def all_projects : List String := [
  "CLAP",
  "openvoice-cli",
  "versatile_audio_super_resolution",
  "stable-audio-tools",
  "fairseq",
  "causal-conv1d",
  "mamba",
  "coqui-ai-TTS",
  "dctorch"]

/-- The error message printed for an unknown `--package` (line 581). -/
def invalidPackageMessage (p : String) : String :=
  "ERROR: Package " ++ p ++ " not found. Available packages: " ++
    String.intercalate ", " all_projects

/-- Result of the package filter in `main` (lines 576-584): either the
list of projects the build loop will iterate over, or the printed error
message of the early `return`. -/
inductive PackageSelection where
  | proceed : List String → PackageSelection
  | errorReturn : String → PackageSelection
deriving DecidableEq

/-- Model of the `--package` filtering in `main` (lines 576-584). -/
def selectProjects : Option String → PackageSelection
  | none => .proceed all_projects
  | some p =>
    if p ∈ all_projects then .proceed [p]
    else .errorReturn (invalidPackageMessage p)

/-- Projects handed to the build loop of `main`, and the interpreter exit
status. On the error branch `main` executes a plain `return`, so no
project reaches `build_wheel`; the script never calls `sys.exit`, so every
return path of `main` ends the process with exit status `0`. -/
def mainBuildsAndExit (package : Option String) : List String × Nat :=
  match selectProjects package with
  | .proceed ps => (ps, 0)
  | .errorReturn _ => ([], 0)

end WheelStudio

namespace WheelStudio

/-- Each `copy_wheels` loop iteration preserves `count = |copied|` up to
the initial offsets. -/
theorem copyStep_count_copied (st : CopyState) (f : String) :
    (copyStep st f).count + st.copied.length = (copyStep st f).copied.length + st.count := by
  unfold copyStep
  split
  · split
    · omega
    · simp only [List.length_append, List.length_cons, List.length_nil]
      omega
  · omega

/-- Over the whole `copy_wheels` fold, `count` grows exactly with the
length of `copied_files`. -/
theorem copyFold_count_copied (files : List String) (st : CopyState) :
    (files.foldl copyStep st).count + st.copied.length
      = (files.foldl copyStep st).copied.length + st.count := by
  induction files generalizing st with
  | nil => simp only [List.foldl_nil]; omega
  | cons f fs ih =>
    have h1 := ih (copyStep st f)
    have h2 := copyStep_count_copied st f
    simp only [List.foldl_cons] at *
    omega

/-- C1 (amended): on Linux with CUDA for fairseq, when the driver query
yields exactly one compute-capability value whose numeric value is `m`, the
`TORCH_CUDA_ARCH_LIST` overlay is the `≤ m` subsequence of
`["12.0","10.0","9.0","8.9","8.7","8.6","8.0","7.5"]` joined by `";"` when
that subsequence is non-empty, and the detected value itself when the
subsequence is empty; if the query raises or yields no values the overlay
falls back to `"7.5;8.0;8.6"`. -/
theorem C1_arch_overlay :
    (∀ s v m, archListOfStdout s = [v] → parsePyFloat v = some m →
      fairseqLinuxArchEnv (.ok s) =
        (if better_arches m = [] then v else String.intercalate ";" (better_arches m))) ∧
    fairseqLinuxArchEnv .raised = "7.5;8.0;8.6" ∧
    (∀ s, archListOfStdout s = [] → fairseqLinuxArchEnv (.ok s) = "7.5;8.0;8.6") := by
  refine ⟨?_, rfl, ?_⟩
  · intro s v m hl hp
    simp only [fairseqLinuxArchEnv, hl, hp, List.length_cons, List.length_nil, List.headD_cons]
    by_cases hb : better_arches m = []
    · simp only [hb, List.length_nil, ne_eq, not_true_eq_false, if_false, if_true,
        reduceIte]
      rfl
    · have hlen : (better_arches m).length ≠ 0 := by
        simpa [List.length_eq_zero] using hb
      simp [hb, hlen]
  · intro s hl
    simp [fairseqLinuxArchEnv, hl]

/-- C1 witness: a detected single capability `"8.6"` yields exactly
`"8.6;8.0;7.5"`. -/
theorem C1_arch_overlay_witness :
    fairseqLinuxArchEnv (.ok "8.6") = "8.6;8.0;7.5" := by
  have h := C1_arch_overlay.1 "8.6" "8.6" ⟨86, 10⟩ (by decide) (by decide)
  have hb : better_arches ⟨86, 10⟩ = ["8.6", "8.0", "7.5"] := by decide
  rw [h, hb]
  decide

/-- C1 counterexample: for a detected single capability `"7.0"` the code
sets the overlay to `"7.0"`, while the claimed `≤ 7.0` subsequence of the
fixed list is empty (so the claim's prescribed overlay would be `""`). -/
theorem C1_counterexample :
    parsePyFloat "7.0" = some ⟨70, 10⟩ ∧
    archListOfStdout "7.0" = ["7.0"] ∧
    fairseqLinuxArchEnv (.ok "7.0") = "7.0" ∧
    better_arches ⟨70, 10⟩ = [] ∧
    String.intercalate ";" (better_arches ⟨70, 10⟩) = "" := by
  refine ⟨by decide, by decide, by decide, by decide, by decide⟩

/-- C2 (confirmed): a wheel file is skipped by the `copy_wheels` loop iff
its name contains `laion_clap-1.1.4` and, at the time of the copy, some
file listed in the target directory contains `laion_clap-1.1.5`; a skipped
file leaves `count` and `copied_files` unchanged, and otherwise the file
is copied, counted and appended to the returned list. -/
theorem C2_clap_dedup (st : CopyState) (file : String)
    (hw : pyEndsWith file ".whl" = true) :
    ((strContains file "laion_clap-1.1.4" = true ∧
        st.target.any (fun existing => strContains existing "laion_clap-1.1.5") = true) →
      copyStep st file = st) ∧
    (¬(strContains file "laion_clap-1.1.4" = true ∧
        st.target.any (fun existing => strContains existing "laion_clap-1.1.5") = true) →
      (copyStep st file).count = st.count + 1 ∧
      (copyStep st file).copied = st.copied ++ [file]) := by
  constructor
  · intro h
    have hs : clapSkip st file = true := by
      simp [clapSkip, h.1, h.2]
    simp [copyStep, hw, hs]
  · intro h
    have hs : clapSkip st file = false := by
      rcases Bool.eq_false_or_eq_true (clapSkip st file) with h' | h'
      · exfalso
        apply h
        simp only [clapSkip, Bool.and_eq_true] at h'
        exact ⟨h'.1, h'.2⟩
      · exact h'
    simp [copyStep, hw, hs]

/-- C2 witness: with `laion_clap-1.1.5-py3-none-any.whl` already in the
target, the `laion_clap-1.1.4` wheel is skipped; with an empty target it
is copied and counted. -/
theorem C2_clap_dedup_witness :
    copyStep { target := ["laion_clap-1.1.5-py3-none-any.whl"], count := 0, copied := [] }
        "laion_clap-1.1.4-py3-none-any.whl"
      = { target := ["laion_clap-1.1.5-py3-none-any.whl"], count := 0, copied := [] } ∧
    (copyStep { target := [], count := 0, copied := [] }
        "laion_clap-1.1.4-py3-none-any.whl").count = 1 ∧
    (copyStep { target := [], count := 0, copied := [] }
        "laion_clap-1.1.4-py3-none-any.whl").copied = ["laion_clap-1.1.4-py3-none-any.whl"] := by
  refine ⟨(C2_clap_dedup _ _ (by decide)).1 ⟨by decide, by decide⟩, ?_, ?_⟩
  · exact ((C2_clap_dedup _ _ (by decide)).2 (by simp)).1
  · exact ((C2_clap_dedup _ _ (by decide)).2 (by simp)).2

/-- C6 (code bug): when the source directory exists, `copy_wheels` returns
the `(count, copied_files)` pair with `count = |copied_files|`; but when
the source directory does not exist it returns the bare integer `0`, which
is not a pair — the sole caller unpacks the result as a pair, so the claim
states the intended contract and the early branch is a slip. -/
theorem C6_copy_wheels_return :
    (∀ src tgt, ∃ n l, (copy_wheels true src tgt).1 = .pairRet n l ∧ l.length = n) ∧
    (∀ src tgt, copy_wheels false src tgt = (.intRet 0, tgt)) ∧
    (∀ n l, CopyResult.intRet 0 ≠ CopyResult.pairRet n l) := by
  refine ⟨?_, fun src tgt => rfl, fun n l h => by cases h⟩
  intro src tgt
  refine ⟨_, _, rfl, ?_⟩
  have h := copyFold_count_copied src { target := tgt, count := 0, copied := [] }
  simpa using h.symm

/-- C6 witness: concrete instances of the three conjuncts. -/
theorem C6_copy_wheels_return_witness :
    (∃ n l, (copy_wheels true ["a-1.0-py3-none-any.whl"] []).1 = .pairRet n l ∧ l.length = n) ∧
    copy_wheels false ["a-1.0-py3-none-any.whl"] ["t.whl"] = (.intRet 0, ["t.whl"]) ∧
    CopyResult.intRet 0 ≠ CopyResult.pairRet 0 [] :=
  ⟨C6_copy_wheels_return.1 ["a-1.0-py3-none-any.whl"] [],
   C6_copy_wheels_return.2.1 ["a-1.0-py3-none-any.whl"] ["t.whl"],
   C6_copy_wheels_return.2.2 0 []⟩

/-- C3 (amended): when `version.txt` exists its stripped content is
returned, independently of any `setup.py` or `pyproject.toml`; `setup.py`
is consulted only when `version.txt` is absent, and `pyproject.toml` only
when both `version.txt` and a matching `setup.py` version field are
absent. -/
theorem C3_version_precedence :
    (∀ c sp pt, get_project_version ⟨some c, sp, pt⟩ = some (pyStrip c)) ∧
    (∀ sp pt v, searchVersion sp = some v →
      get_project_version ⟨none, some sp, pt⟩ = some v) ∧
    (∀ sp pt, searchVersion sp = none →
      get_project_version ⟨none, some sp, pt⟩ = pt.bind searchVersion) ∧
    (∀ pt, get_project_version ⟨none, none, pt⟩ = pt.bind searchVersion) := by
  refine ⟨fun c sp pt => rfl, ?_, ?_, fun pt => rfl⟩
  · intro sp pt v h
    simp [get_project_version, h]
  · intro sp pt h
    simp [get_project_version, h]

/-- C3 witness: `version.txt` content `"0.12.3\n"` wins (stripped) over a
`setup.py` and a `pyproject.toml` version field; without `version.txt` the
`setup.py` field wins; without both, `pyproject.toml` is used. -/
theorem C3_version_precedence_witness :
    get_project_version
        ⟨some "0.12.3\n", some "version = \"9.9\"", some "version = \"8.8\""⟩
      = some "0.12.3" ∧
    get_project_version ⟨none, some "version = \"9.9\"", some "version = \"8.8\""⟩
      = some "9.9" ∧
    get_project_version ⟨none, none, some "version = \"8.8\""⟩ = some "8.8" := by
  refine ⟨?_, ?_, ?_⟩
  · have h := C3_version_precedence.1 "0.12.3\n"
      (some "version = \"9.9\"") (some "version = \"8.8\"")
    rw [h]
    decide
  · exact C3_version_precedence.2.1 "version = \"9.9\"" (some "version = \"8.8\"") "9.9"
      (by decide)
  · have h := C3_version_precedence.2.2.2 (some "version = \"8.8\"")
    rw [h]
    decide

/-- C3 counterexample: a `version.txt` containing `" 1.0\n"` is returned
as `"1.0"`, not verbatim — `get_project_version` strips the content. -/
theorem C3_counterexample :
    get_project_version ⟨some " 1.0\n", none, none⟩ = some "1.0" ∧
    (" 1.0\n" : String) ≠ "1.0" := by
  exact ⟨by decide, by decide⟩

/-- C4 (amended): for the fairseq subproject, whenever the resolved
version is non-empty, differs from `0.12.3`, and the nested
`fairseq/version.txt` exists, that nested file is rewritten to exactly
`0.12.3` before the build command runs — the rewrite happens whatever the
build outcome `br` is, i.e. before the build is consulted. -/
theorem C4_fairseq_version_pin (pp : String) (fs : BuildFS) (br : Bool) (v : String)
    (hv : get_project_version (projectFilesOf fs) = some v)
    (hne : v ≠ "") (h3 : v ≠ "0.12.3") (hex : fs.nestedVersionTxt.isSome = true) :
    ((build_wheel pp "fairseq" fs br).2).nestedVersionTxt = some "0.12.3" := by
  have hpin : (applyFairseqPin "fairseq" fs).nestedVersionTxt = some "0.12.3" := by
    simp [applyFairseqPin, hv, hne, h3, hex]
  by_cases hpt : (applyFairseqPin "fairseq" fs).pyprojectToml.isNone = true
  · simp [build_wheel, hpt, hpin]
  · cases br <;> simp [build_wheel, hpt, hpin]

/-- C4 witness: a fairseq project resolving version `0.12.2` with an
existing nested version file gets the nested file pinned to `0.12.3`. -/
theorem C4_fairseq_version_pin_witness :
    ((build_wheel "p" "fairseq"
        ⟨some "0.12.2", none, some "[project]", some "0.12.2", false, false, false⟩
        false).2).nestedVersionTxt = some "0.12.3" :=
  C4_fairseq_version_pin "p"
    ⟨some "0.12.2", none, some "[project]", some "0.12.2", false, false, false⟩
    false "0.12.2" (by decide) (by decide) (by decide) (by decide)

/-- C4 counterexample: the claim omits the existence guard — when the
nested `fairseq/version.txt` does not exist, the resolved version is a
non-empty `0.12.2` yet no rewrite happens. -/
theorem C4_counterexample :
    get_project_version
        (projectFilesOf ⟨some "0.12.2", none, some "[project]", none, false, false, false⟩)
      = some "0.12.2" ∧
    ((build_wheel "p" "fairseq"
        ⟨some "0.12.2", none, some "[project]", none, false, false, false⟩
        false).2).nestedVersionTxt = none := by
  exact ⟨by decide, by decide⟩

/-- C5 (confirmed): `build_wheel` is total on the model — it returns
`None` exactly when `pyproject.toml` is missing or the build raises (the
raise is caught, not re-raised), and returns the `dist` directory path on
success. -/
theorem C5_build_wheel_result (pp name : String) (fs : BuildFS) (br : Bool) :
    ((build_wheel pp name fs br).1 = none ↔ (fs.pyprojectToml = none ∨ br = true)) ∧
    (fs.pyprojectToml ≠ none → br = false →
      (build_wheel pp name fs br).1 = some (pp ++ "/dist")) := by
  have htoml : (applyFairseqPin name fs).pyprojectToml = fs.pyprojectToml := by
    unfold applyFairseqPin
    split
    · split <;> rfl
    · rfl
  constructor
  · unfold build_wheel
    rcases hpt : fs.pyprojectToml with _ | t
    · simp [htoml, hpt]
    · cases br <;> simp [htoml, hpt]
  · intro h1 h2
    unfold build_wheel
    rcases hpt : fs.pyprojectToml with _ | t
    · exact absurd hpt h1
    · simp [htoml, hpt, h2]

/-- C5 witness: concrete success, missing-`pyproject.toml` and
raising-build cases. -/
theorem C5_build_wheel_result_witness :
    (build_wheel "p" "mamba" ⟨none, none, some "[project]", none, true, false, false⟩
        false).1 = some "p/dist" ∧
    (build_wheel "p" "mamba" ⟨none, none, none, none, true, false, false⟩ false).1 = none ∧
    (build_wheel "p" "mamba" ⟨none, none, some "[project]", none, true, false, false⟩
        true).1 = none := by
  refine ⟨?_, ?_, ?_⟩
  · exact (C5_build_wheel_result "p" "mamba"
      ⟨none, none, some "[project]", none, true, false, false⟩ false).2
      (by decide) rfl
  · exact ((C5_build_wheel_result "p" "mamba"
      ⟨none, none, none, none, true, false, false⟩ false).1).mpr (Or.inl rfl)
  · exact ((C5_build_wheel_result "p" "mamba"
      ⟨none, none, some "[project]", none, true, false, false⟩ true).1).mpr (Or.inr rfl)

/-- Lookup after removal: the removed path is gone, others unchanged. -/
theorem fsGet_fsRemove (fs : DirList) (p q : String) :
    fsGet (fsRemove fs p) q = if q = p then none else fsGet fs q := by
  induction fs with
  | nil => simp [fsRemove, fsGet]
  | cons kv rest ih =>
    rcases kv with ⟨k, v⟩
    by_cases hkp : k = p <;> by_cases hkq : k = q
    · subst hkp; subst hkq
      simp [fsRemove, fsGet, ih]
    · subst hkp
      have hqk : ¬q = k := fun h => hkq h.symm
      simp [fsRemove, fsGet, ih, hqk, hkq]
    · subst hkq
      simp [fsRemove, fsGet, hkp, ih]
    · have hqk : ¬k = q := hkq
      simp [fsRemove, fsGet, hkp, hqk, ih]

/-- Lookup after set: the set path holds the new content, others are
unchanged. -/
theorem fsGet_fsSet (fs : DirList) (p c q : String) :
    fsGet (fsSet fs p c) q = if q = p then some c else fsGet fs q := by
  by_cases h : q = p
  · subst h; simp [fsSet, fsGet]
  · have h' : ¬p = q := fun hh => h hh.symm
    simp [fsSet, fsGet, h, h', fsGet_fsRemove]

/-- Appending a non-empty suffix changes a string. -/
theorem strAppend_ne_self (s t : String) (ht : t.data ≠ []) : s ++ t ≠ s := by
  intro h
  have hlen := congrArg String.length h
  rw [String.length_append] at hlen
  have ht0 : t.length = 0 := by omega
  have ht1 : t.data.length = 0 := ht0
  exact ht (List.length_eq_zero.mp ht1)

/-- Left-cancellation of string append through the character lists. -/
theorem strAppend_left_ne (s a b : String) (hab : a ≠ b) : s ++ a ≠ s ++ b := by
  intro h
  have hd := congrArg String.data h
  rw [String.data_append, String.data_append] at hd
  exact hab (String.ext (List.append_cancel_left hd))

/-- C7 (confirmed): `safely_move_directory` and `safely_remove_directory`
consult at most the first 3 attempt outcomes, return `True` with the
operation applied as soon as an attempt succeeds (after one `sleep(1)` per
caught error so far), return `False` with the filesystem untouched after 3
caught errors (three 1-second delays), and let any non-`OSError` exception
propagate without retrying. -/
theorem C7_bounded_retry :
    (∀ (o o' : Nat → AttemptOutcome) (fs : DirList) (src dst d : String),
      o 0 = o' 0 → o 1 = o' 1 → o 2 = o' 2 →
      safely_move_directory o fs src dst = safely_move_directory o' fs src dst ∧
      safely_remove_directory o fs d = safely_remove_directory o' fs d) ∧
    (∀ o fs src dst d, o 0 = .success →
      safely_move_directory o fs src dst = some (true, moveDir fs src dst, []) ∧
      safely_remove_directory o fs d = some (true, fsRemove fs d, [])) ∧
    (∀ o fs src dst d, o 0 = .osError → o 1 = .success →
      safely_move_directory o fs src dst = some (true, moveDir fs src dst, [1]) ∧
      safely_remove_directory o fs d = some (true, fsRemove fs d, [1])) ∧
    (∀ o fs src dst d, o 0 = .osError → o 1 = .osError → o 2 = .success →
      safely_move_directory o fs src dst = some (true, moveDir fs src dst, [1, 1]) ∧
      safely_remove_directory o fs d = some (true, fsRemove fs d, [1, 1])) ∧
    (∀ o fs src dst d, o 0 = .osError → o 1 = .osError → o 2 = .osError →
      safely_move_directory o fs src dst = some (false, fs, [1, 1, 1]) ∧
      safely_remove_directory o fs d = some (false, fs, [1, 1, 1])) ∧
    (∀ o fs src dst d i, i < 3 → (∀ j, j < i → o j = .osError) → o i = .otherError →
      safely_move_directory o fs src dst = none ∧
      safely_remove_directory o fs d = none) := by
  refine ⟨?_, ?_, ?_, ?_, ?_, ?_⟩
  · intro o o' fs src dst d h0 h1 h2
    constructor <;> simp only [safely_move_directory, safely_remove_directory,
      retryFSOp, h0, h1, h2]
  · intro o fs src dst d h0
    constructor <;> simp [safely_move_directory, safely_remove_directory, retryFSOp, h0]
  · intro o fs src dst d h0 h1
    constructor <;> simp [safely_move_directory, safely_remove_directory, retryFSOp, h0, h1]
  · intro o fs src dst d h0 h1 h2
    constructor <;>
      simp [safely_move_directory, safely_remove_directory, retryFSOp, h0, h1, h2]
  · intro o fs src dst d h0 h1 h2
    constructor <;>
      simp [safely_move_directory, safely_remove_directory, retryFSOp, h0, h1, h2]
  · intro o fs src dst d i hi hj hcur
    interval_cases i
    · constructor <;>
        simp [safely_move_directory, safely_remove_directory, retryFSOp, hcur]
    · have h0 := hj 0 (by omega)
      constructor <;>
        simp [safely_move_directory, safely_remove_directory, retryFSOp, h0, hcur]
    · have h0 := hj 0 (by omega)
      have h1 := hj 1 (by omega)
      constructor <;>
        simp [safely_move_directory, safely_remove_directory, retryFSOp, h0, h1, hcur]

/-- C7 witness: concrete attempt sequences exercising the bound, the
immediate success, the three-failure give-up and the propagating
exception. -/
theorem C7_bounded_retry_witness :
    safely_move_directory (fun _ => .success) [("a", "c")] "a" "b"
      = safely_move_directory (fun n => if n < 3 then .success else .osError)
          [("a", "c")] "a" "b" ∧
    safely_move_directory (fun _ => .success) [("a", "c")] "a" "b"
      = some (true, moveDir [("a", "c")] "a" "b", []) ∧
    safely_remove_directory (fun _ => .osError) [("a", "c")] "a"
      = some (false, [("a", "c")], [1, 1, 1]) ∧
    safely_move_directory (fun _ => .otherError) [("a", "c")] "a" "b" = none :=
  ⟨(C7_bounded_retry.1 _ _ [("a", "c")] "a" "b" "a" rfl rfl rfl).1,
   (C7_bounded_retry.2.1 _ [("a", "c")] "a" "b" "a" rfl).1,
   (C7_bounded_retry.2.2.2.2.1 _ [("a", "c")] "a" "b" "a" rfl rfl rfl).2,
   (C7_bounded_retry.2.2.2.2.2 _ [("a", "c")] "a" "b" "a" 0 (by omega)
      (fun j hj => absurd hj (by omega)) rfl).1⟩

/-- C8 (confirmed): a submodule that is registered in `.gitmodules` and
initialized (`<name>/.git` exists) is untouched — `checkPullStep` issues
no command for it, `addMissingStep` issues no command and returns the
state unchanged, and when every submodule is in that state the full
`add_missing_submodules` and `check_and_pull_submodules` runs do nothing,
so a second run is a no-op. -/
theorem C8_idempotent_reconcile :
    (∀ st env name url, check_submodule_exists st name = true →
      pathExists st (name ++ "/.git") = true →
      checkPullStep st name = [] ∧ addMissingStep env st name url = some ([], st)) ∧
    (∀ (st : RepoState) (envf : String → SubprocessEnv) (mods : List (String × String)),
      (∀ p ∈ mods, check_submodule_exists st p.1 = true ∧
        pathExists st (p.1 ++ "/.git") = true) →
      add_missing_submodules envf st mods = some ([], st) ∧
      check_and_pull_submodules st (mods.map Prod.fst) = []) := by
  have hstep : ∀ st env name url, check_submodule_exists st name = true →
      addMissingStep env st name url = some ([], st) := by
    intro st env name url h
    simp [addMissingStep, h]
  constructor
  · intro st env name url h1 h2
    exact ⟨by simp [checkPullStep, h1, h2], hstep st env name url h1⟩
  · intro st envf mods
    induction mods with
    | nil => intro _; exact ⟨rfl, rfl⟩
    | cons p rest ih =>
      intro hall
      obtain ⟨h1, h2⟩ := hall p (by simp)
      have hrest := ih (fun q hq => hall q (by simp [hq]))
      constructor
      · simp only [add_missing_submodules, hstep st (envf p.1) p.1 p.2 h1, hrest.1]
        rfl
      · have hcp : checkPullStep st p.1 = [] := by simp [checkPullStep, h1, h2]
        simp only [check_and_pull_submodules, List.map_cons, List.flatten_cons, hcp,
          List.nil_append]
        simpa [check_and_pull_submodules] using hrest.2

/-- C8 witness: a registered, initialized `fairseq` submodule is left
untouched by both reconciliation passes. -/
theorem C8_idempotent_reconcile_witness :
    checkPullStep ⟨some "path = fairseq", [("fairseq", "r"), ("fairseq/.git", "g")]⟩
        "fairseq" = [] ∧
    addMissingStep
        ⟨fun _ => .success, fun _ => .success, fun _ => .success, "", "", none, "c"⟩
        ⟨some "path = fairseq", [("fairseq", "r"), ("fairseq/.git", "g")]⟩ "fairseq" "u"
      = some ([], ⟨some "path = fairseq", [("fairseq", "r"), ("fairseq/.git", "g")]⟩) :=
  C8_idempotent_reconcile.1
    ⟨some "path = fairseq", [("fairseq", "r"), ("fairseq/.git", "g")]⟩
    ⟨fun _ => .success, fun _ => .success, fun _ => .success, "", "", none, "c"⟩
    "fairseq" "u" (by decide) (by decide)

/-- C10 (confirmed): a `safely_move_directory` attempt whose destination
exists deletes the pre-existing destination before moving, so the
destination afterwards holds the source's old content; consequently the
plain-directory conversion in `add_missing_submodules`, which moves
`<name>` to `<name>_temp`, silently replaces a pre-existing `<name>_temp`
with the content of `<name>` (made observable by letting the final
temp-directory removal fail, which leaves the moved content in place). -/
theorem C10_move_overwrites_dst :
    (∀ fs src dst c, src ≠ dst → fsGet fs dst = some c →
      fsGet (moveDir fs src dst) dst = fsGet fs src) ∧
    (∀ (env : SubprocessEnv) (st : RepoState) name url c₀ c₁,
      check_submodule_exists st name = false →
      fsGet st.dirs name = some c₀ →
      pathExists st (name ++ "/.git") = false →
      fsGet st.dirs (name ++ "_temp") = some c₁ →
      env.moveOutcome 0 = .success →
      (∀ i, env.removeTempOutcome i = .osError) →
      ∃ cmds st', addMissingStep env st name url = some (cmds, st') ∧
        fsGet st'.dirs (name ++ "_temp") = some c₀) := by
  have hmove : ∀ (fs : DirList) src dst, src ≠ dst →
      fsGet (moveDir fs src dst) dst = fsGet fs src := by
    intro fs src dst hsd
    simp only [moveDir]
    have h1 : fsGet (fsRemove fs dst) src = fsGet fs src := by
      rw [fsGet_fsRemove]
      simp [hsd]
    rw [h1]
    cases hs : fsGet fs src with
    | none => simp [fsGet_fsRemove, hs]
    | some c' => simp [fsGet_fsSet, hs]
  constructor
  · intro fs src dst c hsd hdst
    exact hmove fs src dst hsd
  · intro env st name url c₀ c₁ hreg hname hgit htemp hmv hrt
    have hdir : check_if_directory_exists st name = true := by
      simp [check_if_directory_exists, pathExists, hname]
    have hne1 : name ≠ name ++ "_temp" :=
      fun h => strAppend_ne_self name "_temp" (by decide) h.symm
    have hne2 : name ++ "_temp" ≠ name :=
      strAppend_ne_self name "_temp" (by decide)
    have hne3 : name ++ "_temp" ≠ name ++ "/.git" :=
      strAppend_left_ne name "_temp" "/.git" (by decide)
    have hmv' : safely_move_directory env.moveOutcome st.dirs name (name ++ "_temp")
        = some (true, moveDir st.dirs name (name ++ "_temp"), []) := by
      simp [safely_move_directory, retryFSOp, hmv]
    have hrm : ∀ dirs, safely_remove_directory env.removeTempOutcome dirs (name ++ "_temp")
        = some (false, dirs, [1, 1, 1]) := by
      intro dirs
      simp [safely_remove_directory, retryFSOp, hrt 0, hrt 1, hrt 2]
    refine ⟨[gitSubmoduleAddCmd url name],
      ⟨env.gitmodulesAfterAdd,
        applyGitAdd env (moveDir st.dirs name (name ++ "_temp")) name⟩, ?_, ?_⟩
    · simp [addMissingStep, hreg, hdir, hgit, hmv', hrm]
    · have hmoved : fsGet (moveDir st.dirs name (name ++ "_temp")) (name ++ "_temp")
          = some c₀ := by
        rw [hmove st.dirs name (name ++ "_temp") hne1]
        exact hname
      simp [applyGitAdd, fsGet_fsSet, hne2, hne3, hmoved]

/-- C10 witness: converting plain directory `m` while a stale `m_temp`
exists — after the conversion step (with the temp removal failing), the
temp path holds `m`'s old content, the stale content is gone. -/
theorem C10_move_overwrites_dst_witness :
    fsGet (moveDir [("x", "c1"), ("y", "c2")] "x" "y") "y"
      = fsGet [("x", "c1"), ("y", "c2")] "x" ∧
    (∃ cmds st', addMissingStep
        ⟨fun _ => .success, fun _ => .success, fun _ => .osError, "", "", none, "sub"⟩
        ⟨none, [("m", "old"), ("m_temp", "stale")]⟩ "m" "u" = some (cmds, st') ∧
      fsGet st'.dirs ("m" ++ "_temp") = some "old") :=
  ⟨C10_move_overwrites_dst.1 [("x", "c1"), ("y", "c2")] "x" "y" "c2"
      (by decide) (by decide),
   C10_move_overwrites_dst.2
      ⟨fun _ => .success, fun _ => .success, fun _ => .osError, "", "", none, "sub"⟩
      ⟨none, [("m", "old"), ("m_temp", "stale")]⟩ "m" "u" "old" "stale"
      (by decide) (by decide) (by decide) (by decide) rfl (fun _ => rfl)⟩

/-- Containment in a list survives prepending. -/
theorem listContainsSub_append_left (pat l1 l2 : List Char)
    (h : listContainsSub pat l2 = true) : listContainsSub pat (l1 ++ l2) = true := by
  induction l1 with
  | nil => simpa using h
  | cons c cs ih => simp [listContainsSub, ih]

/-- A substring of the right operand is a substring of the append. -/
theorem strContains_append_right (a b pat : String) (h : strContains b pat = true) :
    strContains (a ++ b) pat = true := by
  unfold strContains at *
  rw [String.data_append]
  exact listContainsSub_append_left pat.data a.data b.data h

/-- C9 (amended): an unknown `--package` makes `main` print an error
message naming every valid project, hand no project to the build loop (so
`build_wheel` is never invoked), and return early — `main` never calls
`sys.exit`, so the process ends with exit status 0, not an error status. -/
theorem C9_invalid_package (p : String) (h : p ∉ all_projects) :
    selectProjects (some p) = .errorReturn (invalidPackageMessage p) ∧
    (∀ name ∈ all_projects, strContains (invalidPackageMessage p) name = true) ∧
    mainBuildsAndExit (some p) = ([], 0) := by
  refine ⟨by simp [selectProjects, h], ?_, by simp [mainBuildsAndExit, selectProjects, h]⟩
  intro name hname
  unfold invalidPackageMessage
  apply strContains_append_right
  fin_cases hname <;> decide

/-- C9 witness: a concrete unknown package name. -/
theorem C9_invalid_package_witness :
    selectProjects (some "bogus-package")
      = .errorReturn (invalidPackageMessage "bogus-package") ∧
    (∀ name ∈ all_projects, strContains (invalidPackageMessage "bogus-package") name = true) ∧
    mainBuildsAndExit (some "bogus-package") = ([], 0) :=
  C9_invalid_package "bogus-package" (by decide)

/-- C9 counterexample: for the unknown package `"bogus"` the run ends with
exit status 0 — `main` merely returns, so there is no error exit as the
claim states. -/
theorem C9_counterexample :
    ("bogus" : String) ∉ all_projects ∧
    mainBuildsAndExit (some "bogus") = ([], 0) := by
  exact ⟨by decide, by decide⟩

end WheelStudio
